import Mathlib

/-!
Shallow embedding of the RustHTTPServer dispatch core.

The embedding follows src/src/lib.rs. The repository modules `request`,
`response`, `threadpool`, `http_parser` and `file_parser` are declared there
but their files are not under src/; everything taken from them is modelled
from the spec and marked as such in its doc comment. Rust `String` values are
modelled as `List Char` (Rust `String::pop` removes one `char`), and byte
vectors as lists of naturals.
-/

namespace RustHTTPServerModel

/-- Bytes of a request or response body (Rust `Vec<u8>`). -/
abbrev Bytes := List Nat

/-- Modelled from the spec (section 3): the parsed HTTP request, from the
`request` module that is absent from src/. -/
structure Request where
  method : String
  url : List Char
  headers : List (String × String)
  body : Bytes
  params : List (String × String)
deriving DecidableEq

/-- Modelled from the spec (section 3): the response builder, from the
`response` module that is absent from src/. -/
structure Response where
  status : Nat
  headers : List (String × String)
  body : Bytes
deriving DecidableEq

/-- Modelled from the spec (section 3): the default Response state created for
each request, status 404 with empty headers and body. -/
def defaultResponse : Response := { status := 404, headers := [], body := [] }

/-- Modelled from the spec: `Response::status` setter used as `res.status(code)`. -/
def Response.setStatus (res : Response) (code : Nat) : Response :=
  { res with status := code }

/-- Modelled from the spec: `Response::header` appends a header pair. -/
def Response.setHeader (res : Response) (key value : String) : Response :=
  { res with headers := res.headers ++ [(key, value)] }

/-- Modelled from the spec: `Response::body_bytes` sets the raw body. -/
def Response.setBodyBytes (res : Response) (contents : Bytes) : Response :=
  { res with body := contents }

/-- Route handler type `fn(Request, Response) -> Response` (src/src/lib.rs:22). -/
abbrev Handler := Request → Response → Response

/-- Middleware type `fn(Request, Response) -> (Request, Response, bool)`
(src/src/lib.rs:24). -/
abbrev Middleware := Request → Response → Request × Response × Bool

/-- Path normalization done inline by `RustHTTPServer::route` (src/src/lib.rs:66-77):
pop the last character (`getLast?` and `dropLast` model Rust `String::pop`); push it
back when it is not a slash or when the remainder is empty; an empty input gets a
single slash pushed. -/
def routeNormalize (path : List Char) : List Char :=
  match path.getLast? with
  | none => ['/']
  | some lastChar =>
    if lastChar ≠ '/' ∨ path.dropLast = [] then path.dropLast ++ [lastChar]
    else path.dropLast

/-- Path normalization done inline by `RustHTTPServer::middle` (src/src/lib.rs:49-60),
textually identical to the one in `route`. -/
def middleNormalize (path : List Char) : List Char :=
  match path.getLast? with
  | none => ['/']
  | some lastChar =>
    if lastChar ≠ '/' ∨ path.dropLast = [] then path.dropLast ++ [lastChar]
    else path.dropLast

/-- The route table `routes: HashMap<String, fn(..)>` (src/src/lib.rs:22), modelled as
an association list; the program only depends on its key-to-value mapping. -/
abbrev Routes := List (List Char × Handler)

/-- The middleware chain `Vec<(String, fn(..))>` (src/src/lib.rs:24). -/
abbrev Chain := List (List Char × Middleware)

/-- Key membership test, modelling `HashMap::contains_key` (src/src/lib.rs:78). -/
def containsKey (key : List Char) (routes : Routes) : Bool :=
  routes.any (fun e => e.1 == key)

/-- Key removal, modelling `HashMap::remove` (src/src/lib.rs:83); a HashMap holds at
most one entry per key, so removing the first matching entry is faithful under the
key-uniqueness invariant. -/
def removeKey (key : List Char) (routes : Routes) : Routes :=
  routes.eraseP (fun e => e.1 == key)

/-- Key lookup, modelling `HashMap::get`. -/
def lookupKey (key : List Char) (routes : Routes) : Option Handler :=
  (routes.find? (fun e => e.1 == key)).map Prod.snd

/-- The server struct `RustHTTPServer` (src/src/lib.rs:18-25). -/
structure RustHTTPServer where
  amount_of_threads : Nat
  routes : Routes
  middleware : Chain

/-- Constructor `RustHTTPServer::new` (src/src/lib.rs:33-39): returns the struct with
the given thread amount and empty tables; it performs no check itself. -/
def RustHTTPServer.new (amount_of_threads : Nat) : RustHTTPServer :=
  { amount_of_threads := amount_of_threads, routes := [], middleware := [] }

/-- Registration `RustHTTPServer::route` (src/src/lib.rs:65-86): normalize the path;
when the key is already present, print a warning and remove the prior entry; insert
the new entry. The returned Bool records whether the duplicate warning was printed. -/
def RustHTTPServer.route (s : RustHTTPServer) (path : List Char) (function : Handler) :
    RustHTTPServer × Bool :=
  let key := routeNormalize path
  if containsKey key s.routes then
    ({ s with routes := removeKey key s.routes ++ [(key, function)] }, true)
  else
    ({ s with routes := s.routes ++ [(key, function)] }, false)

/-- Registration `RustHTTPServer::middle` (src/src/lib.rs:44-62): normalize the path
and push the entry at the end of the chain. -/
def RustHTTPServer.middle (s : RustHTTPServer) (path : List Char) (function : Middleware) :
    RustHTTPServer :=
  { s with middleware := s.middleware ++ [(middleNormalize path, function)] }

/-- The middleware ordering used at src/src/lib.rs:180: compare the registered path
strings by length. -/
def lenLE {α : Type} (a b : List Char × α) : Prop := a.1.length ≤ b.1.length

instance {α : Type} : DecidableRel (@lenLE α) := fun a b => Nat.decLe a.1.length b.1.length

instance {α : Type} : IsTotal (List Char × α) lenLE := ⟨fun a b => Nat.le_total a.1.length b.1.length⟩

instance {α : Type} : IsTrans (List Char × α) lenLE := ⟨fun _ _ _ => Nat.le_trans⟩

/-- Modelled from src/src/lib.rs:180, the sort in `bind`:
`self.middleware.sort_by(|a, b| a.0.len().cmp(&b.0.len()))`. Rust's `sort_by` is a
stable sort; it is modelled as insertion sort, which is stable. -/
def sortMiddleware {α : Type} (chain : List (List Char × α)) : List (List Char × α) :=
  chain.insertionSort lenLE

/-- Modelled from the spec (section 4.5): the worker pool of the `threadpool` module,
which is absent from src/. Construction asserts a positive worker amount and panics
otherwise (the doc comment on `RustHTTPServer::new`, src/src/lib.rs:30-32, documents
the panic); the panic is modelled as `none`. -/
structure ThreadPool where
  workers : Nat
  routes : Routes
  middleware : Chain

/-- Modelled from the spec (sections 4.5 and 8): `ThreadPool::new` fails fatally when
the thread amount is zero, else owns the given amount of workers and shares the cloned
tables. -/
def ThreadPool.new (amount : Nat) (routes : Routes) (middleware : Chain) : Option ThreadPool :=
  if amount = 0 then none else some ⟨amount, routes, middleware⟩

/-- Outcome of a `bind` call. -/
inductive BindOutcome where
  | bindError (msg : List Char)
  | panicked
  | listening (pool : ThreadPool)

/-- Modelled from `RustHTTPServer::bind` (src/src/lib.rs:172-199). The TCP bind is
external I/O and is supplied as a result parameter. On failure the formatted error
string is returned at once (src/src/lib.rs:176), before the middleware sort, the
clones and the pool creation; on success the middleware chain is sorted by path
length, the tables are cloned into a ThreadPool (panicking when the thread amount is
zero) and the accept loop runs. -/
def RustHTTPServer.bind (s : RustHTTPServer) (tcpBind : Except (List Char) Unit) :
    BindOutcome × RustHTTPServer :=
  match tcpBind with
  | Except.error e =>
    (BindOutcome.bindError ("Failed to bind to ip: ".data ++ e), s)
  | Except.ok _ =>
    let sorted := { s with middleware := sortMiddleware s.middleware }
    match ThreadPool.new sorted.amount_of_threads sorted.routes sorted.middleware with
    | none => (BindOutcome.panicked, sorted)
    | some pool => (BindOutcome.listening pool, sorted)

/-- Modelled from the spec (section 4.4 steps 1-2): the middleware loop of the
dispatcher, whose code lives in the `threadpool` and `http_parser` modules absent from
src/. Run the middleware whose registered path is a string prefix of the request
path, in chain order, threading request and response through each; stop at the first
middleware that returns continue false. -/
def runMiddleware (path : List Char) (chain : Chain) (req : Request) (res : Response) :
    Request × Response × Bool :=
  match chain with
  | [] => (req, res, true)
  | (pfx, function) :: rest =>
    if pfx.isPrefixOf path then
      match function req res with
      | (req2, res2, cont) =>
        if cont then runMiddleware path rest req2 res2 else (req2, res2, false)
    else runMiddleware path rest req res

/-- Modelled from the spec (sections 4.1 and 4.4): per-request resolution, from the
modules absent from src/. Start from the default 404 Response; run the applicable
middleware over the normalized request path; when no middleware stopped, look up the
exact normalized path in the route table and invoke the handler; a missing route
leaves the Response as the middleware left it. -/
def handle (routes : Routes) (chain : Chain) (req : Request) : Response :=
  let path := routeNormalize req.url
  let t := runMiddleware path chain req defaultResponse
  if t.2.2 then
    match lookupKey path routes with
    | some function => function t.1 t.2.1
    | none => t.2.1
  else t.2.1

/-- Outcome of the three fallible file-system steps in `route_file`'s handler
(src/src/lib.rs:100-128): `fs::metadata`, `fs::File::open` and `file.read`. -/
inductive FsResult where
  | metaErr
  | openErr (len : Nat)
  | readErr (len : Nat)
  | ok (contents : Bytes)

/-- Modelled from the inner `function` of `RustHTTPServer::route_file`
(src/src/lib.rs:90-131). File-system access is abstracted as the oracle `fs`, applied
to the request url with its leading slash removed, and the content-type table (the
`file_parser` module, absent from src/) as `getType`. On a GET the file bytes become
a 200 response with a content-type header; a file-system failure yields 500; any
other method returns the response unchanged. -/
def routeFileHandler (getType : List Char → String) (fs : List Char → FsResult)
    (req : Request) (res : Response) : Response :=
  if req.method == "GET" then
    let path := req.url
    let fileEnding := ((path.splitOn '.').getLast?).getD []
    let fileType := getType fileEnding
    match fs (path.drop 1) with
    | FsResult.metaErr => res.setStatus 500
    | FsResult.openErr _ => res.setStatus 500
    | FsResult.readErr _ => res.setStatus 500
    | FsResult.ok contents =>
      ((res.setStatus 200).setBodyBytes contents).setHeader "content-type" fileType
  else res

end RustHTTPServerModel

namespace RustHTTPServerModel

theorem c1_registration_normalization :
    (∀ q : List Char, q ≠ [] → routeNormalize (q ++ ['/']) = q) ∧
    routeNormalize ['/'] = ['/'] ∧
    routeNormalize [] = ['/'] ∧
    (∀ (p : List Char) (c : Char), c ≠ '/' → routeNormalize (p ++ [c]) = p ++ [c]) ∧
    (∀ p : List Char, routeNormalize p = middleNormalize p) := by
  refine ⟨?_, by decide, by decide, ?_, fun p => rfl⟩
  · intro q hq
    simp [routeNormalize, List.getLast?_concat, List.dropLast_concat, hq]
  · intro p c hc
    simp [routeNormalize, List.getLast?_concat, List.dropLast_concat, hc]

theorem c1_witness :
    routeNormalize ('/' :: 'a' :: '/' :: []) = '/' :: 'a' :: [] ∧
    routeNormalize ('/' :: 'a' :: []) = '/' :: 'a' :: [] := by
  constructor
  · have h := c1_registration_normalization.1 ('/' :: 'a' :: []) (by decide)
    simpa using h
  · have h := c1_registration_normalization.2.2.2.1 (['/']) 'a' (by decide)
    simpa using h

theorem c2_counterexample :
    ¬ (routeNormalize (routeNormalize ('/' :: '/' :: '/' :: [])) = routeNormalize ('/' :: '/' :: '/' :: [])) := by
  decide

theorem c2_amended_idempotent (p : List Char) (h : p.reverse.take 2 ≠ ['/', '/']) :
    routeNormalize (routeNormalize p) = routeNormalize p ∧
    routeNormalize ('/' :: 'a' :: '/' :: []) = '/' :: 'a' :: [] ∧
    routeNormalize ('/' :: 'a' :: []) = '/' :: 'a' :: [] ∧
    routeNormalize ['/'] = ['/'] := by
  refine ⟨?_, by decide, by decide, by decide⟩
  rcases List.eq_nil_or_concat p with hp | ⟨q, c, hp⟩
  · subst hp; decide
  · subst hp
    by_cases hc : c = '/'
    · subst hc
      rcases List.eq_nil_or_concat q with hq | ⟨q2, d, hq⟩
      · subst hq; decide
      · subst hq
        by_cases hd : d = '/'
        · subst hd
          exact absurd (by simp [List.reverse_append, List.take]) h
        · have h1 : routeNormalize ((q2 ++ [d]) ++ ['/']) = q2 ++ [d] := by
            simp [routeNormalize, List.getLast?_concat, List.dropLast_concat]
          have h2 : routeNormalize (q2 ++ [d]) = q2 ++ [d] := by
            simp [routeNormalize, List.getLast?_concat, List.dropLast_concat, hd]
          simp only [List.concat_eq_append]
          rw [h1, h2]
    · have h1 : routeNormalize (q ++ [c]) = q ++ [c] := by
        simp [routeNormalize, List.getLast?_concat, List.dropLast_concat, hc]
      simp only [List.concat_eq_append]
      rw [h1, h1]

theorem c2_witness :
    (('/' :: 'a' :: '/' :: []).reverse.take 2 ≠ ['/', '/']) ∧
    routeNormalize (routeNormalize ('/' :: 'a' :: '/' :: [])) = routeNormalize ('/' :: 'a' :: '/' :: []) :=
  ⟨by decide, (c2_amended_idempotent ('/' :: 'a' :: '/' :: []) (by decide)).1⟩

theorem c7_zero_threads (routes : Routes) (chain : Chain) :
    ThreadPool.new 0 routes chain = none ∧
    ∀ s : RustHTTPServer, s.amount_of_threads = 0 →
      (s.bind (Except.ok ())).1 = BindOutcome.panicked := by
  refine ⟨rfl, fun s hs => ?_⟩
  simp [RustHTTPServer.bind, ThreadPool.new, hs]

theorem c7_witness :
    ThreadPool.new 0 [] [] = none ∧
    ((RustHTTPServer.new 0).bind (Except.ok ())).1 = BindOutcome.panicked :=
  ⟨(c7_zero_threads [] []).1, (c7_zero_threads [] []).2 (RustHTTPServer.new 0) rfl⟩

theorem c8_bind_failure (s : RustHTTPServer) (err : List Char) :
    (s.bind (Except.error err)).1 = BindOutcome.bindError ("Failed to bind to ip: ".data ++ err) ∧
    (s.bind (Except.error err)).2 = s ∧
    ∀ pool : ThreadPool, (s.bind (Except.error err)).1 ≠ BindOutcome.listening pool := by
  refine ⟨rfl, rfl, fun pool h => ?_⟩
  simp [RustHTTPServer.bind] at h

theorem c10_non_get_unchanged (getType : List Char → String) (fs : List Char → FsResult)
    (req : Request) (res : Response) (h : req.method ≠ "GET") :
    routeFileHandler getType fs req res = res := by
  simp [routeFileHandler, h]

def demoReq : Request :=
  { method := "POST", url := '/' :: 'a' :: [], headers := [], body := [], params := [] }

theorem c10_witness :
    routeFileHandler (fun _ => "") (fun _ => FsResult.metaErr) demoReq defaultResponse
      = defaultResponse :=
  c10_non_get_unchanged (fun _ => "") (fun _ => FsResult.metaErr) demoReq defaultResponse
    (by decide)

end RustHTTPServerModel

namespace RustHTTPServerModel

lemma runMiddleware_append (path : List Char) (pre post : Chain) (req : Request)
    (res : Response) :
    runMiddleware path (pre ++ post) req res =
      (let t := runMiddleware path pre req res
       if t.2.2 then runMiddleware path post t.1 t.2.1 else t) := by
  induction pre generalizing req res with
  | nil => simp [runMiddleware]
  | cons e rest ih =>
    obtain ⟨pfx, mw⟩ := e
    by_cases hp : pfx.isPrefixOf path
    · rcases hmw : mw req res with ⟨req2, res2, cont⟩
      cases cont with
      | true => simp [runMiddleware, hp, hmw, ih]
      | false => simp [runMiddleware, hp, hmw]
    · simp [runMiddleware, hp, ih]

theorem c3_early_termination (routes : Routes) (pre post : Chain) (pfx : List Char)
    (mw : Middleware) (req req1 req2 : Request) (res1 res2 : Response)
    (happ : pfx.isPrefixOf (routeNormalize req.url) = true)
    (hpre : runMiddleware (routeNormalize req.url) pre req defaultResponse = (req1, res1, true))
    (hmw : mw req1 res1 = (req2, res2, false)) :
    handle routes (pre ++ (pfx, mw) :: post) req = res2 := by
  simp only [handle]
  rw [runMiddleware_append, hpre]
  simp [runMiddleware, happ, hmw]

def demo400Middleware : Middleware := fun req res => (req, res.setStatus 400, false)

def demo200Handler : Handler := fun _ res => res.setStatus 200

theorem c3_witness :
    handle [('/' :: 'a' :: [], demo200Handler)] [(['/'], demo400Middleware)] demoReq
      = { status := 400, headers := [], body := [] } := by
  have h := c3_early_termination [('/' :: 'a' :: [], demo200Handler)] [] []
    ['/'] demo400Middleware demoReq demoReq demoReq defaultResponse
    (defaultResponse.setStatus 400) (by decide) rfl rfl
  simpa [defaultResponse, Response.setStatus] using h

lemma runMiddleware_passive (path : List Char) :
    ∀ (chain : Chain) (req : Request) (res : Response),
      (∀ e ∈ chain, e.1.isPrefixOf path = true → ∀ r s, ∃ r2, e.2 r s = (r2, s, true)) →
      ∃ req2, runMiddleware path chain req res = (req2, res, true) := by
  intro chain
  induction chain with
  | nil => exact fun req res _ => ⟨req, rfl⟩
  | cons e rest ih =>
    intro req res hmw
    obtain ⟨pfx, mw⟩ := e
    by_cases hp : pfx.isPrefixOf path
    · obtain ⟨r2, hr2⟩ := hmw (pfx, mw) (by simp) hp req res
      have hr2b : mw req res = (r2, res, true) := hr2
      obtain ⟨r3, hr3⟩ := ih r2 res (fun e2 he hp2 => hmw e2 (by simp [he]) hp2)
      exact ⟨r3, by simp [runMiddleware, hp, hr2b, hr3]⟩
    · obtain ⟨r3, hr3⟩ := ih req res (fun e2 he hp2 => hmw e2 (by simp [he]) hp2)
      exact ⟨r3, by simp [runMiddleware, hp, hr3]⟩

theorem c4_default_fallback (routes : Routes) (chain : Chain) (req : Request)
    (hroute : lookupKey (routeNormalize req.url) routes = none)
    (hmw : ∀ e ∈ chain, e.1.isPrefixOf (routeNormalize req.url) = true →
      ∀ r s, ∃ r2, e.2 r s = (r2, s, true)) :
    handle routes chain req = defaultResponse ∧
    (handle routes chain req).status = 404 ∧ (handle routes chain req).body = [] := by
  obtain ⟨req2, hrun⟩ :=
    runMiddleware_passive (routeNormalize req.url) chain req defaultResponse hmw
  have hh : handle routes chain req = defaultResponse := by
    simp [handle, hrun, hroute]
  exact ⟨hh, by rw [hh]; rfl, by rw [hh]; rfl⟩

def demoPassiveMiddleware : Middleware := fun req res => (req, res, true)

theorem c4_witness :
    handle [] [(['/'], demoPassiveMiddleware)] demoReq = defaultResponse := by
  refine (c4_default_fallback [] [(['/'], demoPassiveMiddleware)] demoReq rfl ?_).1
  intro e he hp r s
  simp only [List.mem_singleton] at he
  subst he
  exact ⟨r, rfl⟩

end RustHTTPServerModel

namespace RustHTTPServerModel

lemma filter_orderedInsert_len {α : Type} (n : Nat) (a : List Char × α)
    (l : List (List Char × α)) :
    (l.orderedInsert lenLE a).filter (fun e => e.1.length == n)
      = (a :: l).filter (fun e => e.1.length == n) := by
  induction l with
  | nil => rfl
  | cons b t ih =>
    by_cases hab : lenLE a b
    · simp only [List.orderedInsert, if_pos hab]
    · have hb : b.1.length < a.1.length := Nat.lt_of_not_le hab
      simp only [List.orderedInsert, if_neg hab]
      by_cases hbn : b.1.length = n
      · have han : ¬ a.1.length = n := by omega
        simp [List.filter_cons, hbn, han, ih]
      · simp [List.filter_cons, hbn, ih]

lemma filter_insertionSort_len {α : Type} (n : Nat) (l : List (List Char × α)) :
    (l.insertionSort lenLE).filter (fun e => e.1.length == n)
      = l.filter (fun e => e.1.length == n) := by
  induction l with
  | nil => rfl
  | cons a t ih =>
    simp only [List.insertionSort]
    rw [filter_orderedInsert_len]
    simp [List.filter_cons, ih]

theorem c5_stable_sort (chain : Chain) :
    (sortMiddleware chain).Sorted lenLE ∧
    (∀ n : Nat, (sortMiddleware chain).filter (fun e => e.1.length == n)
      = chain.filter (fun e => e.1.length == n)) ∧
    (∀ s : RustHTTPServer, (s.bind (Except.ok ())).2.middleware = sortMiddleware s.middleware) := by
  refine ⟨List.sorted_insertionSort lenLE chain, fun n => filter_insertionSort_len n chain,
    fun s => ?_⟩
  simp only [RustHTTPServer.bind]
  rcases ThreadPool.new s.amount_of_threads s.routes (sortMiddleware s.middleware)
    with _ | pool <;> rfl

end RustHTTPServerModel

namespace RustHTTPServerModel

lemma filter_key_of_not_mem (key : List Char) (routes : Routes)
    (h : key ∉ routes.map Prod.fst) :
    routes.filter (fun e => e.1 == key) = [] := by
  induction routes with
  | nil => rfl
  | cons e t ih =>
    simp only [List.map_cons, List.mem_cons, not_or] at h
    have h1 : ¬ (e.1 = key) := fun hh => h.1 hh.symm
    simp [List.filter_cons, h1, ih h.2]

lemma filter_key_of_not_contains (key : List Char) (routes : Routes)
    (h : containsKey key routes = false) :
    routes.filter (fun e => e.1 == key) = [] := by
  simp only [containsKey, List.any_eq_false] at h
  apply filter_key_of_not_mem
  intro hmem
  obtain ⟨e, he, hk⟩ := List.mem_map.mp hmem
  exact h e he (by simp [hk])

lemma filter_key_eraseP (key : List Char) (routes : Routes)
    (hnd : (routes.map Prod.fst).Nodup) :
    (removeKey key routes).filter (fun e => e.1 == key) = [] := by
  induction routes with
  | nil => rfl
  | cons e t ih =>
    simp only [List.map_cons, List.nodup_cons] at hnd
    by_cases hk : e.1 = key
    · have hnm : key ∉ t.map Prod.fst := hk ▸ hnd.1
      have hbeq : (e.1 == key) = true := by simp [hk]
      rw [removeKey, List.eraseP_cons, hbeq, cond_true]
      exact filter_key_of_not_mem key t hnm
    · have hbeq : (e.1 == key) = false := by simp [hk]
      rw [removeKey, List.eraseP_cons, hbeq, cond_false, List.filter_cons]
      simp only [hbeq, Bool.false_eq_true, if_false]
      exact ih hnd.2

lemma not_mem_keys_of_filter_nil (key : List Char) (routes : Routes)
    (h : routes.filter (fun e => e.1 == key) = []) :
    key ∉ routes.map Prod.fst := by
  intro hmem
  obtain ⟨e, he, hk⟩ := List.mem_map.mp hmem
  have hin : e ∈ routes.filter (fun e => e.1 == key) :=
    List.mem_filter.mpr ⟨he, by simp [hk]⟩
  simp [h] at hin

lemma route_routes (s : RustHTTPServer) (p : List Char) (f : Handler) :
    (s.route p f).1.routes =
      (if containsKey (routeNormalize p) s.routes = true
        then removeKey (routeNormalize p) s.routes else s.routes)
      ++ [(routeNormalize p, f)] := by
  by_cases h : containsKey (routeNormalize p) s.routes = true <;>
  simp [RustHTTPServer.route, h]

lemma filter_key_route (s : RustHTTPServer) (p : List Char) (f : Handler)
    (hnd : (s.routes.map Prod.fst).Nodup) :
    (s.route p f).1.routes.filter (fun e => e.1 == routeNormalize p)
      = [(routeNormalize p, f)] := by
  rw [route_routes, List.filter_append]
  by_cases h : containsKey (routeNormalize p) s.routes = true
  · simp [h, filter_key_eraseP _ _ hnd]
  · have h2 : containsKey (routeNormalize p) s.routes = false := by
      simpa using h
    simp [h, filter_key_of_not_contains _ _ h2]

lemma nodup_keys_route (s : RustHTTPServer) (p : List Char) (f : Handler)
    (hnd : (s.routes.map Prod.fst).Nodup) :
    ((s.route p f).1.routes.map Prod.fst).Nodup := by
  rw [route_routes, List.map_append]
  by_cases h : containsKey (routeNormalize p) s.routes = true
  · rw [if_pos h]
    refine List.Nodup.append ?_ (List.nodup_singleton _) ?_
    · exact hnd.sublist ((List.eraseP_sublist _).map Prod.fst)
    · intro x hx hy
      simp only [List.map_cons, List.map_nil, List.mem_singleton] at hy
      subst hy
      exact not_mem_keys_of_filter_nil _ _ (filter_key_eraseP _ _ hnd) hx
  · rw [if_neg h]
    refine List.Nodup.append hnd (List.nodup_singleton _) ?_
    intro x hx hy
    simp only [List.map_cons, List.map_nil, List.mem_singleton] at hy
    subst hy
    have h2 : containsKey (routeNormalize p) s.routes = false := by simpa using h
    exact not_mem_keys_of_filter_nil _ _ (filter_key_of_not_contains _ _ h2) hx

lemma route_snd (s : RustHTTPServer) (p : List Char) (f : Handler) :
    (s.route p f).2 = containsKey (routeNormalize p) s.routes := by
  by_cases h : containsKey (routeNormalize p) s.routes = true <;>
  simp [RustHTTPServer.route, h]

lemma contains_of_filter_eq (key : List Char) (routes : Routes) (f : Handler)
    (h : routes.filter (fun e => e.1 == key) = [(key, f)]) :
    containsKey key routes = true := by
  have hmem : (key, f) ∈ routes :=
    List.mem_of_mem_filter (p := fun e => e.1 == key)
      (by rw [h]; exact List.mem_singleton_self _)
  simp only [containsKey, List.any_eq_true]
  exact ⟨(key, f), hmem, by simp⟩

lemma find?_eq_head?_filter {α : Type} (pred : α → Bool) (l : List α) :
    l.find? pred = (l.filter pred).head? := by
  induction l with
  | nil => rfl
  | cons a t ih =>
    by_cases h : pred a = true
    · rw [List.find?_cons_of_pos _ h, List.filter_cons]
      simp [h]
    · rw [List.find?_cons_of_neg _ h, List.filter_cons, if_neg h]
      exact ih

theorem c6_duplicate_route (s : RustHTTPServer) (p q : List Char) (f g : Handler)
    (hnd : (s.routes.map Prod.fst).Nodup)
    (hpq : routeNormalize p = routeNormalize q) :
    (((s.route p f).1).route q g).2 = true ∧
    lookupKey (routeNormalize q) (((s.route p f).1).route q g).1.routes = some g ∧
    ((((s.route p f).1).route q g).1.routes.filter
      (fun e => e.1 == routeNormalize q)).length = 1 := by
  have hnd1 : ((s.route p f).1.routes.map Prod.fst).Nodup := nodup_keys_route s p f hnd
  have hf1 : (s.route p f).1.routes.filter (fun e => e.1 == routeNormalize q)
      = [(routeNormalize q, f)] := by
    rw [← hpq]
    exact filter_key_route s p f hnd
  have hc1 : containsKey (routeNormalize q) (s.route p f).1.routes = true :=
    contains_of_filter_eq _ _ f hf1
  have hf2 : (((s.route p f).1).route q g).1.routes.filter
      (fun e => e.1 == routeNormalize q) = [(routeNormalize q, g)] :=
    filter_key_route (s.route p f).1 q g hnd1
  refine ⟨?_, ?_, ?_⟩
  · rw [route_snd]
    exact hc1
  · rw [lookupKey, find?_eq_head?_filter, hf2]
    rfl
  · rw [hf2]
    rfl

def demoHandlerF : Handler := fun _ res => res

def demoHandlerG : Handler := fun _ res => res.setStatus 200

theorem c6_witness :
    (((RustHTTPServer.new 2).route ('/' :: 'a' :: '/' :: []) demoHandlerF).1.route
        ('/' :: 'a' :: []) demoHandlerG).2 = true ∧
    lookupKey ('/' :: 'a' :: [])
      (((RustHTTPServer.new 2).route ('/' :: 'a' :: '/' :: []) demoHandlerF).1.route
        ('/' :: 'a' :: []) demoHandlerG).1.routes = some demoHandlerG := by
  have h := c6_duplicate_route (RustHTTPServer.new 2) ('/' :: 'a' :: '/' :: []) ('/' :: 'a' :: [])
    demoHandlerF demoHandlerG (by simp [RustHTTPServer.new]) (by decide)
  have hn : routeNormalize ('/' :: 'a' :: []) = '/' :: 'a' :: [] := by decide
  exact ⟨h.1, by rw [← hn]; exact h.2.1⟩

end RustHTTPServerModel
